import Mathlib

/-
  Verification of the multi-tenant authorization core of llamacto/llama-gin-kit.

  The Go sources are shallowly embedded as pure Lean functions:
  - database tables become lists of rows inside a DB structure;
  - gorm queries (filters, joins, counts) become list filters and any/find operations,
    translated clause by clause from the SQL or gorm call chains;
  - fallible service methods return Except String paired with the (possibly updated) DB;
  - time.Now() becomes an explicit now parameter (the code evaluates expiry lazily
    against the current time, never via a background sweep);
  - DB-assigned surrogate keys and created/updated timestamps of binding rows are
    elided where no embedded logic reads them.
-/

namespace GinKit

namespace Authz

/-- Row of the roles table as used by app/authorization (service.go, dto.go):
name, display name, description, numeric level, system flag and status. -/
structure Role where
  id : Nat
  name : String
  displayName : String
  description : String
  level : Int
  isSystem : Bool
  status : Int
  deriving Repr, DecidableEq

/-- Row of the permissions table as used by app/authorization. -/
structure Permission where
  id : Nat
  name : String
  status : Int
  deriving Repr, DecidableEq

/-- Row of the role_permissions link table (many-to-many role to permission). -/
structure RolePermission where
  roleId : Nat
  permissionId : Nat
  deriving Repr, DecidableEq

/-- Row of the user_roles table: global-scope binding of a user to a role,
with assigner, optional expiry timestamp and active flag. -/
structure UserRole where
  userId : Nat
  roleId : Nat
  assignedBy : Nat
  expiresAt : Option Nat
  isActive : Bool
  deriving Repr, DecidableEq

/-- Row of the organization_roles table: organization-scope binding. -/
structure OrganizationRole where
  userId : Nat
  organizationId : Nat
  roleId : Nat
  assignedBy : Nat
  isActive : Bool
  deriving Repr, DecidableEq

/-- Row of the team_roles table: team-scope binding. -/
structure TeamRole where
  userId : Nat
  teamId : Nat
  roleId : Nat
  assignedBy : Nat
  isActive : Bool
  deriving Repr, DecidableEq

/-- The authorization-relevant tables of the store. -/
structure DB where
  roles : List Role
  permissions : List Permission
  rolePermissions : List RolePermission
  userRoles : List UserRole
  organizationRoles : List OrganizationRole
  teamRoles : List TeamRole
  deriving Repr, DecidableEq

namespace Repo

/-- Embeds repository.go GetRoleByID: First(&role) with WHERE id = ?. -/
def GetRoleByID (db : DB) (id : Nat) : Option Role :=
  db.roles.find? (fun r => r.id == id)

/-- Embeds repository.go GetPermissionsByIDs: Find with WHERE id IN ?. -/
def GetPermissionsByIDs (db : DB) (ids : List Nat) : List Permission :=
  db.permissions.filter (fun p => ids.contains p.id)

/-- Embeds repository.go AssignPermissionsToRole: inside one transaction, delete every
role_permissions row of the role, then insert one row per requested permission id
(nothing is inserted for the empty list). -/
def AssignPermissionsToRole (db : DB) (roleId : Nat) (permissionIds : List Nat) : DB :=
  { db with rolePermissions :=
      db.rolePermissions.filter (fun rp => rp.roleId != roleId)
        ++ permissionIds.map (fun pid => { roleId := roleId, permissionId := pid }) }

/-- Embeds repository.go GetUserRoles: Find with WHERE user_id = ? AND is_active = true.
No condition on expires_at appears in the query. -/
def GetUserRoles (db : DB) (userId : Nat) : List UserRole :=
  db.userRoles.filter (fun ur => ur.userId == userId && ur.isActive)

/-- Embeds repository.go GetUsersWithRole: Find with WHERE role_id = ?. -/
def GetUsersWithRole (db : DB) (roleId : Nat) : List UserRole :=
  db.userRoles.filter (fun ur => ur.roleId == roleId)

/-- Embeds repository.go CheckUserRole: COUNT of user_roles rows with the user, the role
and is_active = true; returns count > 0. -/
def CheckUserRole (db : DB) (userId roleId : Nat) : Bool :=
  db.userRoles.any (fun ur => ur.userId == userId && ur.roleId == roleId && ur.isActive)

/-- Embeds repository.go GetUserOrganizationRoles: Find with
WHERE user_id = ? AND organization_id = ? AND is_active = true. -/
def GetUserOrganizationRoles (db : DB) (userId organizationId : Nat) : List OrganizationRole :=
  db.organizationRoles.filter (fun og =>
    og.userId == userId && og.organizationId == organizationId && og.isActive)

/-- Embeds repository.go GetUserTeamRoles: Find with
WHERE user_id = ? AND team_id = ? AND is_active = true. -/
def GetUserTeamRoles (db : DB) (userId teamId : Nat) : List TeamRole :=
  db.teamRoles.filter (fun tr =>
    tr.userId == userId && tr.teamId == teamId && tr.isActive)

/-- Embeds repository.go CheckUserPermission: the SQL joins
permissions - role_permissions - roles - user_roles with
WHERE ur.user_id = ? AND p.name = ? AND ur.is_active = true AND r.status = 1
AND p.status = 1, and returns whether the count is positive.
The query never looks at expires_at. -/
def CheckUserPermission (db : DB) (userId : Nat) (permission : String) : Bool :=
  db.permissions.any (fun p =>
    p.name == permission && p.status == 1 &&
    db.rolePermissions.any (fun rp =>
      rp.permissionId == p.id &&
      db.roles.any (fun r =>
        r.id == rp.roleId && r.status == 1 &&
        db.userRoles.any (fun ur =>
          ur.roleId == r.id && ur.userId == userId && ur.isActive))))

/-- Embeds repository.go CheckUserOrganizationPermission: same join through
organization_roles with the organization id added to the WHERE clause. -/
def CheckUserOrganizationPermission (db : DB) (userId organizationId : Nat)
    (permission : String) : Bool :=
  db.permissions.any (fun p =>
    p.name == permission && p.status == 1 &&
    db.rolePermissions.any (fun rp =>
      rp.permissionId == p.id &&
      db.roles.any (fun r =>
        r.id == rp.roleId && r.status == 1 &&
        db.organizationRoles.any (fun og =>
          og.roleId == r.id && og.userId == userId &&
          og.organizationId == organizationId && og.isActive))))

/-- Embeds repository.go GetUserTeamPermissions: SELECT DISTINCT p.name joined through
team_roles with WHERE tr.user_id = ? AND tr.team_id = ? AND tr.is_active = true
AND r.status = 1 AND p.status = 1. -/
def GetUserTeamPermissions (db : DB) (userId teamId : Nat) : List String :=
  ((db.permissions.filter (fun p =>
    p.status == 1 &&
    db.rolePermissions.any (fun rp =>
      rp.permissionId == p.id &&
      db.roles.any (fun r =>
        r.id == rp.roleId && r.status == 1 &&
        db.teamRoles.any (fun tr =>
          tr.roleId == r.id && tr.userId == userId &&
          tr.teamId == teamId && tr.isActive))))).map (fun p => p.name)).dedup

/-- Embeds repository.go CheckUserTeamPermission: fetches GetUserTeamPermissions and
scans the list for the requested name. -/
def CheckUserTeamPermission (db : DB) (userId teamId : Nat) (permission : String) : Bool :=
  (GetUserTeamPermissions db userId teamId).contains permission

end Repo

/-- The name of the role a binding points at, through the gorm Preload of the
Role association (a dangling role id preloads the zero-valued Role, name ""). -/
def roleNameOf (db : DB) (roleId : Nat) : String :=
  match Repo.GetRoleByID db roleId with
  | some r => r.name
  | none => ""

/-- The level of the role a binding points at, through the gorm Preload
(a dangling role id yields the zero value 0). -/
def roleLevelOf (db : DB) (roleId : Nat) : Int :=
  match Repo.GetRoleByID db roleId with
  | some r => r.level
  | none => 0

/-- Embeds dto.go CheckPermissionRequest: user, permission name, optional organization
and team ids. -/
structure CheckPermissionRequest where
  userId : Nat
  permission : String
  organizationId : Option Nat
  teamId : Option Nat

/-- Embeds dto.go CheckPermissionResponse (the fields the service fills). -/
structure CheckPermissionResponse where
  hasPermission : Bool
  userId : Nat
  permission : String
  roles : List String
  source : String
  deriving Repr, DecidableEq

namespace Service

/-- Embeds service.go CheckPermission: checks the global scope first; the organization
scope only when no earlier match and an organization id is supplied; the team
scope only when no earlier match and a team id is supplied. The first matching
scope sets hasPermission, records the role names of that scope and sets Source;
when nothing matches the response carries hasPermission false and empty Source.
The repository reads are embedded as total functions, so the error returns of
the Go code (which only propagate storage failures) cannot fire here. -/
def CheckPermission (db : DB) (req : CheckPermissionRequest) : CheckPermissionResponse :=
  let s1 : Bool × List String × String :=
    if Repo.CheckUserPermission db req.userId req.permission then
      (true, (Repo.GetUserRoles db req.userId).map (fun ur => roleNameOf db ur.roleId), "global")
    else (false, [], "")
  let s2 : Bool × List String × String :=
    if !s1.1 then
      match req.organizationId with
      | some oid =>
        if Repo.CheckUserOrganizationPermission db req.userId oid req.permission then
          (true,
           s1.2.1 ++ (Repo.GetUserOrganizationRoles db req.userId oid).map
             (fun og => roleNameOf db og.roleId),
           "organization")
        else s1
      | none => s1
    else s1
  let s3 : Bool × List String × String :=
    if !s2.1 then
      match req.teamId with
      | some tid =>
        if Repo.CheckUserTeamPermission db req.userId tid req.permission then
          (true,
           s2.2.1 ++ (Repo.GetUserTeamRoles db req.userId tid).map
             (fun tr => roleNameOf db tr.roleId),
           "team")
        else s2
      | none => s2
    else s2
  { hasPermission := s3.1, userId := req.userId, permission := req.permission,
    roles := s3.2.1, source := s3.2.2 }

end Service

/-- Embeds repository.go UpdateRole: db.Save, replacing the row with the same primary key. -/
def Repo.UpdateRole (db : DB) (role : Role) : DB :=
  { db with roles := db.roles.map (fun r => if r.id == role.id then role else r) }

/-- Embeds repository.go DeleteRole: db.Delete on the roles table by id. -/
def Repo.DeleteRole (db : DB) (id : Nat) : DB :=
  { db with roles := db.roles.filter (fun r => r.id != id) }

/-- Embeds repository.go AssignRoleToUser: a bare gorm Create on the user_roles table. -/
def Repo.AssignRoleToUser (db : DB) (ur : UserRole) : DB :=
  { db with userRoles := db.userRoles ++ [ur] }

/-- Embeds repository.go AssignOrganizationRole: a bare gorm Create on the
organization_roles table. The authorization model file with the gorm struct tags
is not part of the sources; no uniqueness constraint is declared anywhere in the
visible code (and only the global-scope service path performs a duplicate
check), so the insert is embedded as an unconditional append. -/
def Repo.AssignOrganizationRole (db : DB) (og : OrganizationRole) : DB :=
  { db with organizationRoles := db.organizationRoles ++ [og] }

/-- Embeds repository.go AssignTeamRole: a bare gorm Create on the team_roles table,
embedded like Repo.AssignOrganizationRole. -/
def Repo.AssignTeamRole (db : DB) (tr : TeamRole) : DB :=
  { db with teamRoles := db.teamRoles ++ [tr] }

/-- Embeds dto.go UpdateRoleRequest: partial update, only the provided fields change. -/
structure UpdateRoleRequest where
  displayName : Option String
  description : Option String
  level : Option Int
  status : Option Int

/-- Embeds dto.go AssignRoleRequest. -/
structure AssignRoleRequest where
  userId : Nat
  roleId : Nat
  expiresAt : Option Nat

/-- Embeds dto.go AssignOrganizationRoleRequest. -/
structure AssignOrganizationRoleRequest where
  userId : Nat
  organizationId : Nat
  roleId : Nat

/-- Embeds dto.go AssignTeamRoleRequest. -/
structure AssignTeamRoleRequest where
  userId : Nat
  teamId : Nat
  roleId : Nat

namespace Service

/-- Embeds service.go UpdateRole: load the role (error when absent), refuse system
roles, otherwise apply the provided fields and save. -/
def UpdateRole (db : DB) (id : Nat) (req : UpdateRoleRequest) : Except String Role × DB :=
  match Repo.GetRoleByID db id with
  | none => (.error "failed to get role", db)
  | some role =>
    if role.isSystem then (.error "cannot update system role", db)
    else
      let role' : Role := { role with
        displayName := req.displayName.getD role.displayName
        description := req.description.getD role.description
        level := req.level.getD role.level
        status := req.status.getD role.status }
      (.ok role', Repo.UpdateRole db role')

/-- Embeds service.go DeleteRole: load the role (error when absent), refuse system
roles, refuse roles still assigned to users, otherwise delete. -/
def DeleteRole (db : DB) (id : Nat) : Except String Unit × DB :=
  match Repo.GetRoleByID db id with
  | none => (.error "failed to get role", db)
  | some role =>
    if role.isSystem then (.error "cannot delete system role", db)
    else if (Repo.GetUsersWithRole db id).length > 0 then
      (.error "cannot delete role that is assigned to users", db)
    else (.ok (), Repo.DeleteRole db id)

/-- Embeds service.go AssignPermissionsToRole: verify the role exists, fetch the rows
matching the requested ids and compare the row count against the length of the
request list, then hand over to the replace-not-merge repository operation. -/
def AssignPermissionsToRole (db : DB) (roleId : Nat) (permissionIds : List Nat) :
    Except String Unit × DB :=
  match Repo.GetRoleByID db roleId with
  | none => (.error "failed to get role", db)
  | some _ =>
    if (Repo.GetPermissionsByIDs db permissionIds).length != permissionIds.length then
      (.error "some permissions not found", db)
    else (.ok (), Repo.AssignPermissionsToRole db roleId permissionIds)

/-- Embeds service.go AssignRoleToUser: verify the role exists, reject when the user
already holds an active binding to it, otherwise insert an active binding
carrying the assigner and the optional expiry. -/
def AssignRoleToUser (db : DB) (req : AssignRoleRequest) (assignedBy : Nat) :
    Except String UserRole × DB :=
  match Repo.GetRoleByID db req.roleId with
  | none => (.error "failed to get role", db)
  | some _ =>
    if Repo.CheckUserRole db req.userId req.roleId then
      (.error "user already has this role", db)
    else
      let ur : UserRole :=
        { userId := req.userId, roleId := req.roleId, assignedBy := assignedBy,
          expiresAt := req.expiresAt, isActive := true }
      (.ok ur, Repo.AssignRoleToUser db ur)

/-- The loop body of service.go AssignRolesToUser: each role id goes through
AssignRoleToUser (with no expiry, as the Go code builds the inner request from
the user and role ids only); a failing id is skipped and the remaining ids are
still processed; successful bindings are collected in order. -/
def AssignRolesToUserLoop (userId assignedBy : Nat) (db : DB) :
    List Nat → List UserRole × DB
  | [] => ([], db)
  | rid :: rest =>
    match AssignRoleToUser db { userId := userId, roleId := rid, expiresAt := none } assignedBy with
    | (.ok ur, db') =>
      let (rs, db'') := AssignRolesToUserLoop userId assignedBy db' rest
      (ur :: rs, db'')
    | (.error _, db') => AssignRolesToUserLoop userId assignedBy db' rest

/-- Embeds service.go AssignRolesToUser: runs the loop and returns the collected
successes with a nil error (the Go function never surfaces a per-role failure). -/
def AssignRolesToUser (db : DB) (userId : Nat) (roleIds : List Nat) (assignedBy : Nat) :
    Except String (List UserRole) × DB :=
  let (rs, db') := AssignRolesToUserLoop userId assignedBy db roleIds
  (.ok rs, db')

/-- Embeds service.go AssignOrganizationRole: verify the role exists, then insert an
active organization-scope binding; no duplicate check of any kind is performed. -/
def AssignOrganizationRole (db : DB) (req : AssignOrganizationRoleRequest)
    (assignedBy : Nat) : Except String OrganizationRole × DB :=
  match Repo.GetRoleByID db req.roleId with
  | none => (.error "failed to get role", db)
  | some _ =>
    let og : OrganizationRole :=
      { userId := req.userId, organizationId := req.organizationId,
        roleId := req.roleId, assignedBy := assignedBy, isActive := true }
    (.ok og, Repo.AssignOrganizationRole db og)

/-- Embeds service.go AssignTeamRole: verify the role exists, then insert an active
team-scope binding; no duplicate check of any kind is performed. -/
def AssignTeamRole (db : DB) (req : AssignTeamRoleRequest) (assignedBy : Nat) :
    Except String TeamRole × DB :=
  match Repo.GetRoleByID db req.roleId with
  | none => (.error "failed to get role", db)
  | some _ =>
    let tr : TeamRole :=
      { userId := req.userId, teamId := req.teamId, roleId := req.roleId,
        assignedBy := assignedBy, isActive := true }
    (.ok tr, Repo.AssignTeamRole db tr)

end Service

namespace Middleware

/-- Embeds middleware.go RequirePermission decision for an authenticated user: allow
when the global permission check succeeds, otherwise allow when one of the
users active global role bindings points at a role named super_admin, otherwise
deny. -/
def RequirePermission (db : DB) (userId : Nat) (requiredPermission : String) : Bool :=
  if Repo.CheckUserPermission db userId requiredPermission then true
  else (Repo.GetUserRoles db userId).any (fun ur => roleNameOf db ur.roleId == "super_admin")

/-- Embeds middleware.go RequireRole decision: allow when an active global binding
points at a role with the required name or at a role named super_admin. -/
def RequireRole (db : DB) (userId : Nat) (requiredRole : String) : Bool :=
  (Repo.GetUserRoles db userId).any (fun ur =>
    roleNameOf db ur.roleId == requiredRole || roleNameOf db ur.roleId == "super_admin")

/-- The maxLevel computation of middleware.go RequireLevel: starting from 0,
take each active global bindings role level when it exceeds the accumulator. -/
def maxLevel (db : DB) (userId : Nat) : Int :=
  (Repo.GetUserRoles db userId).foldl
    (fun acc ur => if roleLevelOf db ur.roleId > acc then roleLevelOf db ur.roleId else acc) 0

/-- Embeds middleware.go RequireLevel decision: deny exactly when maxLevel is below
the required threshold. No super_admin name check appears in this handler. -/
def RequireLevel (db : DB) (userId : Nat) (requiredLevel : Int) : Bool :=
  !(maxLevel db userId < requiredLevel)

end Middleware

end Authz

namespace Org

/-- JSON value as produced by encoding/json into interface values (the shapes
the organization service inspects: booleans decisively, everything else only
through failed type assertions). -/
inductive JsonVal where
  | bool (b : Bool)
  | str (s : String)
  | num (n : Int)
  | null
  deriving Repr, DecidableEq

/-- Parse result of the permission JSON text stored on an organization role:
invalid when json.Unmarshal fails, otherwise the entries of the JSON object
(keys unique, as Unmarshal produces a Go map). The migration row with the text
mapping star to the string star becomes obj with the entry (star, str star);
the synthesized admin role text mapping star to true becomes obj with the
entry (star, bool true). -/
inductive PermData where
  | invalid
  | obj (entries : List (String × JsonVal))
  deriving Repr, DecidableEq

/-- Go map lookup on the parsed JSON object. -/
def lookupKey (entries : List (String × JsonVal)) (key : String) : Option JsonVal :=
  (entries.find? (fun e => e.1 == key)).map (fun e => e.2)

/-- The value passes the Go type assertion val.(bool) and is true. -/
def boolTrue : Option JsonVal → Bool
  | some (.bool b) => b
  | _ => false

/-- Row of the organizations table (fields the embedded logic reads; the
status column default of gorm is 1). -/
structure Organization where
  id : Nat
  name : String
  status : Int
  deriving Repr, DecidableEq

/-- Row of the organization_roles table of the organization package:
an optional owning organization (null marks a system role or template),
the permission JSON and the default flag. -/
structure Role where
  id : Nat
  name : String
  displayName : String
  description : String
  organizationId : Option Nat
  permissions : PermData
  isDefault : Bool
  deriving Repr, DecidableEq

/-- Row of the organization_members table: user, organization, optional team,
exactly one role, status (1 active, 0 pending, 2 disabled), join time and
inviter. -/
structure Member where
  userId : Nat
  organizationId : Nat
  teamId : Option Nat
  roleId : Nat
  status : Int
  joinedAt : Nat
  invitedBy : Nat
  deriving Repr, DecidableEq

/-- Row of the organization_invitations table (status 0 pending, 1 accepted,
2 rejected, 3 expired). -/
structure Invitation where
  id : Nat
  email : String
  organizationId : Nat
  teamId : Option Nat
  roleId : Nat
  invitedBy : Nat
  token : String
  expiresAt : Nat
  status : Int
  deriving Repr, DecidableEq

/-- The organization-package tables; nextId models the auto-increment primary
key counter of the store (rows are kept in insertion, hence primary-key,
order). -/
structure OrgDB where
  organizations : List Organization
  roles : List Role
  members : List Member
  invitations : List Invitation
  nextId : Nat
  deriving Repr, DecidableEq

namespace Repo

/-- GetMemberByUserAndOrg: First with WHERE user_id = ? AND organization_id = ?. -/
def GetMemberByUserAndOrg (db : OrgDB) (userId orgId : Nat) : Option Member :=
  db.members.find? (fun m => m.userId == userId && m.organizationId == orgId)

/-- GetRole: First by primary key. -/
def GetRole (db : OrgDB) (id : Nat) : Option Role :=
  db.roles.find? (fun r => r.id == id)

/-- GetInvitationByToken: First with WHERE token = ?. -/
def GetInvitationByToken (db : OrgDB) (token : String) : Option Invitation :=
  db.invitations.find? (fun i => i.token == token)

/-- UpdateInvitation: db.Save, replacing the row with the same primary key. -/
def UpdateInvitation (db : OrgDB) (inv : Invitation) : OrgDB :=
  { db with invitations := db.invitations.map (fun i => if i.id == inv.id then inv else i) }

/-- AddMember: gorm Create on organization_members. -/
def AddMember (db : OrgDB) (m : Member) : OrgDB :=
  { db with members := db.members ++ [m] }

end Repo

namespace Service

/-- Embeds part_003 OrganizationServiceImpl.CheckPermission: load the member record
(error when the user is not a member), deny inactive members, load the role
(error when absent), parse the stored permission JSON (error when invalid),
grant when the star key holds the JSON boolean true, grant when the requested
name holds the JSON boolean true, otherwise deny. -/
def CheckPermission (db : OrgDB) (userId orgId : Nat) (permission : String) :
    Except String Bool :=
  match Repo.GetMemberByUserAndOrg db userId orgId with
  | none => .error "user is not a member of this organization"
  | some member =>
    if member.status != 1 then .ok false
    else
      match Repo.GetRole db member.roleId with
      | none => .error "member role not found"
      | some role =>
        match role.permissions with
        | .invalid => .error "invalid permission format"
        | .obj entries =>
          if boolTrue (lookupKey entries "*") then .ok true
          else if boolTrue (lookupKey entries permission) then .ok true
          else .ok false

/-- ProcessInvitation: load by token (error when absent); when the expiry
timestamp lies strictly before now, persist status 3 (expired) and fail with
the expired error -- this check runs before the status guard; when the status
is not 0 (pending), fail with the already-processed error; otherwise persist
status 1 (accepted) and add an active member copying role and team from the
invitation. -/
def ProcessInvitation (db : OrgDB) (now : Nat) (token : String) (userId : Nat) :
    Except String Unit × OrgDB :=
  match Repo.GetInvitationByToken db token with
  | none => (.error "invitation not found", db)
  | some inv =>
    if inv.expiresAt < now then
      (.error "invitation has expired", Repo.UpdateInvitation db { inv with status := 3 })
    else if inv.status != 0 then
      (.error "invitation has already been processed", db)
    else
      let db1 := Repo.UpdateInvitation db { inv with status := 1 }
      let m : Member :=
        { userId := userId, organizationId := inv.organizationId, teamId := inv.teamId,
          roleId := inv.roleId, status := 1, joinedAt := now, invitedBy := inv.invitedBy }
      (.ok (), Repo.AddMember db1 m)

/-- Whether the k-th storage write of a transaction body fails, in an injected
failure scenario standing for the storage collaborator: none lets every write
succeed, some k makes the k-th write (0-based, in execution order) fail. -/
def writeFails (fail : Option Nat) (k : Nat) : Bool :=
  match fail with
  | some j => j == k
  | none => false

/-- The admin-role lookup of CreateOrganization: First with
WHERE name = ? AND (organization_id = ? OR organization_id IS NULL). -/
def findAdminRole (db : OrgDB) (orgId : Nat) : Option Role :=
  db.roles.find? (fun r =>
    r.name == "admin" && (r.organizationId == some orgId || r.organizationId == none))

/-- The transaction body of CreateOrganization: create the organization row,
resolve an admin role scoped to it or a null-organization template, create one
(with the permission JSON mapping star to true) when absent, and add the
creating user as an active member bound to that role. -/
def CreateOrganizationBody (fail : Option Nat) (db : OrgDB) (name : String)
    (userId : Nat) (now : Nat) : Except String OrgDB :=
  if writeFails fail 0 then .error "storage error" else
  let orgId := db.nextId
  let db1 : OrgDB := { db with
    organizations := db.organizations ++ [{ id := orgId, name := name, status := 1 }]
    nextId := db.nextId + 1 }
  match findAdminRole db1 orgId with
  | some role =>
    if writeFails fail 1 then .error "storage error" else
    .ok (Repo.AddMember db1
      { userId := userId, organizationId := orgId, teamId := none,
        roleId := role.id, status := 1, joinedAt := now, invitedBy := userId })
  | none =>
    if writeFails fail 1 then .error "storage error" else
    let roleId := db1.nextId
    let db2 : OrgDB := { db1 with
      roles := db1.roles ++
        [{ id := roleId, name := "admin", displayName := "Administrator",
           description := "Full administrative access", organizationId := some orgId,
           permissions := .obj [("*", .bool true)], isDefault := false }]
      nextId := db1.nextId + 1 }
    if writeFails fail 2 then .error "storage error" else
    .ok (Repo.AddMember db2
      { userId := userId, organizationId := orgId, teamId := none,
        roleId := roleId, status := 1, joinedAt := now, invitedBy := userId })

/-- CreateOrganization: runs the body under db.Transaction of gorm; when the
body reports an error the transaction rolls back and the store is exactly as
before. -/
def CreateOrganization (fail : Option Nat) (db : OrgDB) (name : String)
    (userId : Nat) (now : Nat) : Except String Unit × OrgDB :=
  match CreateOrganizationBody fail db name userId now with
  | .ok db' => (.ok (), db')
  | .error e => (.error e, db)

end Service

/-- The success shape claimed for CreateOrganization: the new organization row
exists, a role named admin scoped to it (or a null-organization template) is
bound, that role either pre-existed or was synthesized with the full-wildcard
permission object, and the creating user holds an active membership with it. -/
def CreateOrganizationOk (db db' : OrgDB) (name : String) (userId : Nat) : Prop :=
  ∃ orgId role,
    ({ id := orgId, name := name, status := 1 } : Organization) ∈ db'.organizations ∧
    role ∈ db'.roles ∧ role.name = "admin" ∧
    (role.organizationId = some orgId ∨ role.organizationId = none) ∧
    (role ∈ db.roles ∨ role.permissions = .obj [("*", .bool true)]) ∧
    ∃ m ∈ db'.members, m.userId = userId ∧ m.organizationId = orgId ∧
      m.roleId = role.id ∧ m.status = 1

end Org

/-- An empty authorization store. -/
def emptyDB : Authz.DB :=
  { roles := [], permissions := [], rolePermissions := [], userRoles := [],
    organizationRoles := [], teamRoles := [] }

/-- The super_admin system role as seeded by InitializeSystemRoles. -/
def sysRole : Authz.Role :=
  { id := 1, name := "super_admin", displayName := "Super Administrator",
    description := "Super administrator with all permissions", level := 1000,
    isSystem := true, status := 1 }

/-- A non-system role for concrete instances. -/
def plainRole (id : Nat) (name : String) (lvl : Int) : Authz.Role :=
  { id := id, name := name, displayName := name, description := "", level := lvl,
    isSystem := false, status := 1 }

/-- A store holding one system role. -/
def c8db : Authz.DB := { emptyDB with roles := [sysRole] }

/-- A store holding one ordinary role and no bindings. -/
def c5db : Authz.DB := { emptyDB with roles := [plainRole 1 "editor" 10] }

/-- The store after a first organization-scope bind of (user 1, role 1, org 1). -/
def c5db1 : Authz.DB :=
  (Authz.Service.AssignOrganizationRole c5db
    { userId := 1, organizationId := 1, roleId := 1 } 9).2

/-- A store where user 1 holds an active global binding whose expiry timestamp
0 lies in the past of any positive clock, to a status-1 role granting the
status-1 permission users.read. -/
def c6db : Authz.DB :=
  { emptyDB with
    roles := [plainRole 1 "editor" 10]
    permissions := [{ id := 2, name := "users.read", status := 1 }]
    rolePermissions := [{ roleId := 1, permissionId := 2 }]
    userRoles := [{ userId := 1, roleId := 1, assignedBy := 0, expiresAt := some 0,
                    isActive := true }] }

/-- A store where user 1 holds an active global binding to the super_admin
role (level 1000) and no permission rows exist. -/
def c7db : Authz.DB :=
  { emptyDB with
    roles := [sysRole]
    userRoles := [{ userId := 1, roleId := 1, assignedBy := 0, expiresAt := none,
                    isActive := true }] }

/-- A store holding one role and three permissions, with no links. -/
def c4db : Authz.DB :=
  { emptyDB with
    roles := [plainRole 1 "editor" 10]
    permissions := [{ id := 1, name := "pA", status := 1 },
                    { id := 2, name := "pB", status := 1 },
                    { id := 3, name := "pC", status := 1 }] }

/-- A store holding two assignable roles. -/
def c10db : Authz.DB :=
  { emptyDB with roles := [plainRole 1 "editor" 10, plainRole 2 "viewer" 5] }

/-- A pending invitation whose expiry timestamp 5 lies in the past of clock 10. -/
def c3inv : Org.Invitation :=
  { id := 1, email := "alice@example.com", organizationId := 1, teamId := none,
    roleId := 1, invitedBy := 1, token := "t", expiresAt := 5, status := 0 }

/-- An organization store holding that one invitation. -/
def c3db : Org.OrgDB :=
  { organizations := [{ id := 1, name := "acme", status := 1 }], roles := [],
    members := [], invitations := [c3inv], nextId := 2 }

/-- The default admin role created by migration 202506187: its permission JSON
text maps the star key to the STRING star (the migration comments it as the
wildcard granting all permissions). -/
def migrationAdminRole : Org.Role :=
  { id := 10, name := "admin", displayName := "Administrator",
    description := "Full system administrator with all permissions",
    organizationId := none, permissions := .obj [("*", .str "*")],
    isDefault := false }

/-- The same role with the other wildcard representation, the one the
synthesized admin role of CreateOrganization uses: star maps to true. -/
def boolWildcardAdminRole : Org.Role :=
  { migrationAdminRole with permissions := .obj [("*", .bool true)] }

/-- An active membership of user 1 in organization 1 under role 10. -/
def c2member : Org.Member :=
  { userId := 1, organizationId := 1, teamId := none, roleId := 10, status := 1,
    joinedAt := 0, invitedBy := 1 }

/-- An organization store where user 1 is an active member bound to the
migration default admin role. -/
def c2dbStr : Org.OrgDB :=
  { organizations := [{ id := 1, name := "acme", status := 1 }],
    roles := [migrationAdminRole], members := [c2member], invitations := [],
    nextId := 20 }

/-- The same store with the boolean wildcard representation instead. -/
def c2dbBool : Org.OrgDB := { c2dbStr with roles := [boolWildcardAdminRole] }

end GinKit

namespace GinKit

open Authz

/-- Claim C1: CheckPermission evaluates global, then organization (only when supplied
and global did not match), then team (only when supplied and neither earlier
scope matched), short-circuits at the first granting scope, reports that scope
in Source, and when no scope matches returns hasPermission false (with the
empty Source and, the reads being total, no error). -/
theorem checkPermission_scope_precedence (db : Authz.DB) (req : CheckPermissionRequest) :
    (Service.CheckPermission db req).hasPermission =
      (Repo.CheckUserPermission db req.userId req.permission
        || (match req.organizationId with
            | some oid => Repo.CheckUserOrganizationPermission db req.userId oid req.permission
            | none => false)
        || (match req.teamId with
            | some tid => Repo.CheckUserTeamPermission db req.userId tid req.permission
            | none => false))
    ∧ (Service.CheckPermission db req).source =
      (if Repo.CheckUserPermission db req.userId req.permission then "global"
       else if (match req.organizationId with
                | some oid => Repo.CheckUserOrganizationPermission db req.userId oid req.permission
                | none => false) then "organization"
       else if (match req.teamId with
                | some tid => Repo.CheckUserTeamPermission db req.userId tid req.permission
                | none => false) then "team"
       else "") := by
  obtain ⟨uid, perm, oid?, tid?⟩ := req
  cases hg : Repo.CheckUserPermission db uid perm <;>
    cases oid? with
    | none =>
      cases tid? with
      | none => simp [Service.CheckPermission, hg]
      | some tid =>
        cases ht : Repo.CheckUserTeamPermission db uid tid perm <;>
          simp [Service.CheckPermission, hg, ht]
    | some oid =>
      cases ho : Repo.CheckUserOrganizationPermission db uid oid perm <;>
        cases tid? with
        | none => simp [Service.CheckPermission, hg, ho]
        | some tid =>
          cases ht : Repo.CheckUserTeamPermission db uid tid perm <;>
            simp [Service.CheckPermission, hg, ho, ht]

/-- Claim C8: for a role stored with the system flag, UpdateRole fails with the
cannot-update-system-role error and DeleteRole fails with the
cannot-delete-system-role error, and both leave the store unchanged. -/
theorem systemRole_update_delete_immutable (db : Authz.DB) (id : Nat)
    (req : UpdateRoleRequest) (role : Authz.Role)
    (hfind : Repo.GetRoleByID db id = some role) (hsys : role.isSystem = true) :
    Service.UpdateRole db id req = (.error "cannot update system role", db)
    ∧ Service.DeleteRole db id = (.error "cannot delete system role", db) := by
  refine ⟨?_, ?_⟩ <;> simp [Service.UpdateRole, Service.DeleteRole, hfind, hsys]

/-- Witness for C8 at a store holding the system role super_admin. -/
theorem systemRole_update_delete_immutable_witness :
    Service.UpdateRole c8db 1
        { displayName := none, description := none, level := none, status := none }
      = (.error "cannot update system role", c8db)
    ∧ Service.DeleteRole c8db 1 = (.error "cannot delete system role", c8db) :=
  systemRole_update_delete_immutable c8db 1
    { displayName := none, description := none, level := none, status := none }
    sysRole (by decide) (by decide)

/-- Claim C2: at the store where user 1 is an active member bound to the migration
default admin role (permission JSON text mapping the star key to the string
star, commented in migration 202506187 as the wildcard for all permissions),
the organization permission check denies EVERY permission name, because its
wildcard branch only honours a JSON boolean true; with the boolean wildcard
representation (the one CreateOrganization synthesizes) the same check grants
every name. -/
theorem orgCheckPermission_wildcard_divergence :
    (∀ perm : String, Org.Service.CheckPermission c2dbStr 1 1 perm = .ok false)
    ∧ (∀ perm : String, Org.Service.CheckPermission c2dbBool 1 1 perm = .ok true) := by
  constructor
  · intro perm
    show (if Org.boolTrue (Org.lookupKey [("*", Org.JsonVal.str "*")] "*") then
            Except.ok true
          else if Org.boolTrue (Org.lookupKey [("*", Org.JsonVal.str "*")] perm) then
            Except.ok true
          else Except.ok false) = Except.ok false
    by_cases h : ("*" : String) = perm
    · subst h; rfl
    · have hb : (("*" : String) == perm) = false := by
        simp [h]
      simp [Org.lookupKey, Org.boolTrue, hb]
  · intro perm
    rfl

/-- Claim C6 (amended): listing the global bindings of a user returns exactly the
rows flagged active for that user, with no expiry condition of any kind; and
the point-wise permission check holds iff some active binding (again with no
expiry condition) reaches a status-1 role linked to the status-1 permission. -/
theorem listBindings_activeFlag_only (db : Authz.DB) (uid : Nat) :
    (∀ ur : Authz.UserRole, ur ∈ Repo.GetUserRoles db uid ↔
      ur ∈ db.userRoles ∧ ur.userId = uid ∧ ur.isActive = true)
    ∧ (∀ perm : String, Repo.CheckUserPermission db uid perm = true ↔
      ∃ p ∈ db.permissions, p.name = perm ∧ p.status = 1 ∧
      ∃ rp ∈ db.rolePermissions, rp.permissionId = p.id ∧
      ∃ r ∈ db.roles, r.id = rp.roleId ∧ r.status = 1 ∧
      ∃ ur ∈ db.userRoles, ur.roleId = r.id ∧ ur.userId = uid ∧ ur.isActive = true) := by
  constructor
  · intro ur
    simp [Repo.GetUserRoles, List.mem_filter, and_assoc]
  · intro perm
    simp only [Repo.CheckUserPermission, List.any_eq_true, Bool.and_eq_true,
      beq_iff_eq, and_assoc]

/-- Counterexample for C6 as stated: user 1 holds an active global binding
whose expiry timestamp 0 has passed for every positive clock value, yet the
binding is returned by the listing and the permission check grants through it
(no query consults expires_at). -/
theorem expiredBinding_included_counterexample :
    ({ userId := 1, roleId := 1, assignedBy := 0, expiresAt := some 0,
       isActive := true } : Authz.UserRole) ∈ Repo.GetUserRoles c6db 1
    ∧ ((0 : Nat) < 1)
    ∧ Repo.CheckUserPermission c6db 1 "users.read" = true := by
  decide

/-- Claim C7 (amended): a user holding an active global binding to a role named
super_admin passes RequirePermission for every permission name and RequireRole
for every role name; RequireLevel carries no super_admin override and grants
exactly when the maximum level over the users active role bindings reaches the
threshold. -/
theorem superAdmin_override_and_level_semantics (db : Authz.DB) (uid : Nat)
    (hsa : (Repo.GetUserRoles db uid).any
      (fun ur => roleNameOf db ur.roleId == "super_admin") = true) :
    (∀ p : String, Middleware.RequirePermission db uid p = true)
    ∧ (∀ rname : String, Middleware.RequireRole db uid rname = true)
    ∧ (∀ lvl : Int, Middleware.RequireLevel db uid lvl
        = decide (lvl ≤ Middleware.maxLevel db uid)) := by
  refine ⟨?_, ?_, ?_⟩
  · intro p
    cases h : Repo.CheckUserPermission db uid p <;>
      simp [Middleware.RequirePermission, h, hsa]
  · intro rname
    rw [List.any_eq_true] at hsa
    obtain ⟨ur, hmem, hname⟩ := hsa
    rw [Middleware.RequireRole, List.any_eq_true]
    exact ⟨ur, hmem, by rw [Bool.or_eq_true]; exact Or.inr hname⟩
  · intro lvl
    rw [Middleware.RequireLevel, ← decide_not]
    exact decide_eq_decide.mpr Int.not_lt

/-- Witness for C7: at the super_admin store, RequirePermission grants an
arbitrary permission name and RequireLevel grants threshold 500 under the
computed maximum 1000. -/
theorem superAdmin_override_witness :
    Middleware.RequirePermission c7db 1 "users.delete" = true
    ∧ Middleware.RequireLevel c7db 1 500 = true := by
  have h := superAdmin_override_and_level_semantics c7db 1 (by decide)
  refine ⟨h.1 "users.delete", ?_⟩
  rw [h.2.2 500]
  decide

/-- Counterexample for C7 as stated: user 1 holds an active binding to the
role named super_admin (level 1000), yet the numeric level check with
threshold 1001 denies: RequireLevel has no super_admin override. -/
theorem requireLevel_no_superAdmin_override :
    (Repo.GetUserRoles c7db 1).any
      (fun ur => roleNameOf c7db ur.roleId == "super_admin") = true
    ∧ Middleware.RequireLevel c7db 1 1001 = false := by
  decide

/-- Inserting a global binding leaves the roles table, hence role lookup,
untouched. -/
theorem getRoleByID_after_userRole_insert (db : Authz.DB) (ur : Authz.UserRole)
    (rid : Nat) :
    Repo.GetRoleByID (Repo.AssignRoleToUser db ur) rid = Repo.GetRoleByID db rid := rfl

/-- Inserting an organization binding leaves role lookup untouched. -/
theorem getRoleByID_after_orgRole_insert (db : Authz.DB) (og : Authz.OrganizationRole)
    (rid : Nat) :
    Repo.GetRoleByID (Repo.AssignOrganizationRole db og) rid = Repo.GetRoleByID db rid := rfl

/-- Inserting a team binding leaves role lookup untouched. -/
theorem getRoleByID_after_teamRole_insert (db : Authz.DB) (tr : Authz.TeamRole)
    (rid : Nat) :
    Repo.GetRoleByID (Repo.AssignTeamRole db tr) rid = Repo.GetRoleByID db rid := rfl

/-- Claim C5 (amended): the duplicate-binding guard exists only at global scope.
With the role present and no prior active global binding, the first
AssignRoleToUser succeeds and the second fails with the already-has-role error
leaving the store as after the first; AssignOrganizationRole and
AssignTeamRole, by contrast, perform no duplicate check: both calls succeed
and the second grows the binding set by one more row. -/
theorem bind_duplicate_guard_global_only (db : Authz.DB)
    (uid rid orgId teamId aby aby2 : Nat) (exp : Option Nat) (r : Authz.Role)
    (hrole : Repo.GetRoleByID db rid = some r)
    (hnew : Repo.CheckUserRole db uid rid = false) :
    ((∃ ur, (Service.AssignRoleToUser db ⟨uid, rid, exp⟩ aby).1 = .ok ur)
      ∧ Service.AssignRoleToUser (Service.AssignRoleToUser db ⟨uid, rid, exp⟩ aby).2
          ⟨uid, rid, exp⟩ aby2
        = (.error "user already has this role",
           (Service.AssignRoleToUser db ⟨uid, rid, exp⟩ aby).2))
    ∧ ((∃ og, (Service.AssignOrganizationRole db ⟨uid, orgId, rid⟩ aby).1 = .ok og)
      ∧ (∃ og2, (Service.AssignOrganizationRole
            (Service.AssignOrganizationRole db ⟨uid, orgId, rid⟩ aby).2
            ⟨uid, orgId, rid⟩ aby2).1 = .ok og2)
      ∧ (Service.AssignOrganizationRole
            (Service.AssignOrganizationRole db ⟨uid, orgId, rid⟩ aby).2
            ⟨uid, orgId, rid⟩ aby2).2.organizationRoles.length
          = db.organizationRoles.length + 2)
    ∧ ((∃ t1, (Service.AssignTeamRole db ⟨uid, teamId, rid⟩ aby).1 = .ok t1)
      ∧ (∃ t2, (Service.AssignTeamRole
            (Service.AssignTeamRole db ⟨uid, teamId, rid⟩ aby).2
            ⟨uid, teamId, rid⟩ aby2).1 = .ok t2)
      ∧ (Service.AssignTeamRole (Service.AssignTeamRole db ⟨uid, teamId, rid⟩ aby).2
            ⟨uid, teamId, rid⟩ aby2).2.teamRoles.length
          = db.teamRoles.length + 2) := by
  have h1 : Service.AssignRoleToUser db ⟨uid, rid, exp⟩ aby
      = (.ok { userId := uid, roleId := rid, assignedBy := aby, expiresAt := exp,
               isActive := true },
         Repo.AssignRoleToUser db
           { userId := uid, roleId := rid, assignedBy := aby, expiresAt := exp,
             isActive := true }) := by
    simp [Service.AssignRoleToUser, hrole, hnew]
  have hc : Repo.CheckUserRole
      (Repo.AssignRoleToUser db
        { userId := uid, roleId := rid, assignedBy := aby, expiresAt := exp,
          isActive := true }) uid rid = true := by
    simp [Repo.CheckUserRole, Repo.AssignRoleToUser, List.any_append]
  have hro : Repo.GetRoleByID
      (Repo.AssignRoleToUser db
        { userId := uid, roleId := rid, assignedBy := aby, expiresAt := exp,
          isActive := true }) rid = some r := by
    rw [getRoleByID_after_userRole_insert]; exact hrole
  have e1 : Service.AssignOrganizationRole db ⟨uid, orgId, rid⟩ aby
      = (.ok { userId := uid, organizationId := orgId, roleId := rid,
               assignedBy := aby, isActive := true },
         Repo.AssignOrganizationRole db
           { userId := uid, organizationId := orgId, roleId := rid,
             assignedBy := aby, isActive := true }) := by
    simp [Service.AssignOrganizationRole, hrole]
  have hgo : Repo.GetRoleByID
      (Repo.AssignOrganizationRole db
        { userId := uid, organizationId := orgId, roleId := rid,
          assignedBy := aby, isActive := true }) rid = some r := by
    rw [getRoleByID_after_orgRole_insert]; exact hrole
  have e2 : Service.AssignOrganizationRole
      (Repo.AssignOrganizationRole db
        { userId := uid, organizationId := orgId, roleId := rid,
          assignedBy := aby, isActive := true }) ⟨uid, orgId, rid⟩ aby2
      = (.ok { userId := uid, organizationId := orgId, roleId := rid,
               assignedBy := aby2, isActive := true },
         Repo.AssignOrganizationRole
           (Repo.AssignOrganizationRole db
             { userId := uid, organizationId := orgId, roleId := rid,
               assignedBy := aby, isActive := true })
           { userId := uid, organizationId := orgId, roleId := rid,
             assignedBy := aby2, isActive := true }) := by
    simp [Service.AssignOrganizationRole, hgo]
  have f1 : Service.AssignTeamRole db ⟨uid, teamId, rid⟩ aby
      = (.ok { userId := uid, teamId := teamId, roleId := rid,
               assignedBy := aby, isActive := true },
         Repo.AssignTeamRole db
           { userId := uid, teamId := teamId, roleId := rid,
             assignedBy := aby, isActive := true }) := by
    simp [Service.AssignTeamRole, hrole]
  have hgt : Repo.GetRoleByID
      (Repo.AssignTeamRole db
        { userId := uid, teamId := teamId, roleId := rid,
          assignedBy := aby, isActive := true }) rid = some r := by
    rw [getRoleByID_after_teamRole_insert]; exact hrole
  have f2 : Service.AssignTeamRole
      (Repo.AssignTeamRole db
        { userId := uid, teamId := teamId, roleId := rid,
          assignedBy := aby, isActive := true }) ⟨uid, teamId, rid⟩ aby2
      = (.ok { userId := uid, teamId := teamId, roleId := rid,
               assignedBy := aby2, isActive := true },
         Repo.AssignTeamRole
           (Repo.AssignTeamRole db
             { userId := uid, teamId := teamId, roleId := rid,
               assignedBy := aby, isActive := true })
           { userId := uid, teamId := teamId, roleId := rid,
             assignedBy := aby2, isActive := true }) := by
    simp [Service.AssignTeamRole, hgt]
  refine ⟨⟨⟨{ userId := uid, roleId := rid, assignedBy := aby, expiresAt := exp,
              isActive := true }, by rw [h1]⟩, ?_⟩,
          ⟨⟨{ userId := uid, organizationId := orgId, roleId := rid,
              assignedBy := aby, isActive := true }, by rw [e1]⟩,
           ⟨{ userId := uid, organizationId := orgId, roleId := rid,
              assignedBy := aby2, isActive := true }, by rw [e1, e2]⟩, ?_⟩,
          ⟨⟨{ userId := uid, teamId := teamId, roleId := rid,
              assignedBy := aby, isActive := true }, by rw [f1]⟩,
           ⟨{ userId := uid, teamId := teamId, roleId := rid,
              assignedBy := aby2, isActive := true }, by rw [f1, f2]⟩, ?_⟩⟩
  · rw [h1]
    simp [Service.AssignRoleToUser, hro, hc]
  · rw [e1, e2]
    simp [Repo.AssignOrganizationRole, List.append_assoc]
  · rw [f1, f2]
    simp [Repo.AssignTeamRole, List.append_assoc]

/-- Witness for C5 at the one-role store: a first global bind succeeds and
the repeated global bind fails with the already-has-role error. -/
theorem bind_duplicate_guard_global_only_witness :
    (∃ ur, (Service.AssignRoleToUser c5db ⟨1, 1, none⟩ 9).1 = .ok ur)
    ∧ Service.AssignRoleToUser (Service.AssignRoleToUser c5db ⟨1, 1, none⟩ 9).2
        ⟨1, 1, none⟩ 9
      = (.error "user already has this role",
         (Service.AssignRoleToUser c5db ⟨1, 1, none⟩ 9).2) := by
  have h := bind_duplicate_guard_global_only c5db 1 1 1 1 9 9 none
    (plainRole 1 "editor" 10) (by decide) (by decide)
  exact h.1

/-- Counterexample for C5 as stated: after the first organization-scope bind
of (user 1, role 1, organization 1), the second identical bind call succeeds
(no AlreadyBound) and the stored binding set is no longer the one left by the
first call. -/
theorem bind_duplicate_org_counterexample :
    (Service.AssignOrganizationRole c5db1
        { userId := 1, organizationId := 1, roleId := 1 } 9).1
      = .ok { userId := 1, organizationId := 1, roleId := 1, assignedBy := 9,
              isActive := true }
    ∧ (Service.AssignOrganizationRole c5db1
        { userId := 1, organizationId := 1, roleId := 1 } 9).2.organizationRoles
      ≠ c5db1.organizationRoles :=
  ⟨rfl, by decide⟩

/-- After the Save of an invitation that keeps its id and token, lookup by the
token returns the updated row (invitation ids are unique primary keys). -/
theorem find?_token_after_update (l : List Org.Invitation) (token : String)
    (inv inv' : Org.Invitation)
    (hids : (l.map Org.Invitation.id).Nodup)
    (hfind : l.find? (fun i => i.token == token) = some inv)
    (hid : inv'.id = inv.id) (htok : inv'.token = inv.token) :
    (l.map (fun i => if i.id == inv'.id then inv' else i)).find?
      (fun i => i.token == token) = some inv' := by
  induction l with
  | nil => simp at hfind
  | cons hd t ih =>
    rw [List.map_cons, List.nodup_cons] at hids
    rw [List.map_cons]
    by_cases hh : (hd.token == token) = true
    · rw [List.find?_cons, hh] at hfind
      obtain rfl : hd = inv := by injection hfind
      have hcond : (hd.id == inv'.id) = true := by simp [hid]
      rw [if_pos hcond, List.find?_cons,
        show (inv'.token == token) = true by rw [htok]; exact hh]
    · have hh' : (hd.token == token) = false := by simpa using hh
      rw [List.find?_cons, hh'] at hfind
      have hmem : inv ∈ t := List.mem_of_find?_eq_some hfind
      have hne : ¬ ((hd.id == inv'.id) = true) := by
        rw [hid]
        refine fun hcontra => hids.1 ?_
        exact (beq_iff_eq.mp hcontra) ▸ List.mem_map_of_mem Org.Invitation.id hmem
      rw [if_neg hne, List.find?_cons, hh']
      exact ih hids.2 hfind

/-- Claim C3 (amended): for an invitation whose expiry lies strictly before the
clock, ProcessInvitation persists status expired and fails with the expired
error; a later call on that same invitation again fails with the expired error
(the expiry check runs before the status guard), not with AlreadyProcessed. -/
theorem processInvitation_expired_writeThenFail (db : Org.OrgDB)
    (now later uid uid2 : Nat) (token : String) (inv : Org.Invitation)
    (hids : (db.invitations.map Org.Invitation.id).Nodup)
    (hfind : Org.Repo.GetInvitationByToken db token = some inv)
    (hexp : inv.expiresAt < now) (hlater : inv.expiresAt < later) :
    (Org.Service.ProcessInvitation db now token uid).1
      = .error "invitation has expired"
    ∧ Org.Repo.GetInvitationByToken
        (Org.Service.ProcessInvitation db now token uid).2 token
      = some { inv with status := 3 }
    ∧ (Org.Service.ProcessInvitation
        (Org.Service.ProcessInvitation db now token uid).2 later token uid2).1
      = .error "invitation has expired" := by
  have h1 : Org.Service.ProcessInvitation db now token uid
      = (.error "invitation has expired",
         Org.Repo.UpdateInvitation db { inv with status := 3 }) := by
    simp [Org.Service.ProcessInvitation, hfind, hexp]
  have h2 : Org.Repo.GetInvitationByToken
      (Org.Repo.UpdateInvitation db { inv with status := 3 }) token
      = some { inv with status := 3 } :=
    find?_token_after_update db.invitations token inv _ hids hfind rfl rfl
  refine ⟨by rw [h1], ?_, ?_⟩
  · rw [h1]; exact h2
  · rw [h1]
    simp [Org.Service.ProcessInvitation, h2, hlater]

/-- Witness for C3 at the store with one pending invitation expiring at 5:
processing at clock 10 persists status 3 and fails expired, and processing
again at clock 11 fails expired once more. -/
theorem processInvitation_expired_writeThenFail_witness :
    (Org.Service.ProcessInvitation c3db 10 "t" 7).1
      = .error "invitation has expired"
    ∧ Org.Repo.GetInvitationByToken
        (Org.Service.ProcessInvitation c3db 10 "t" 7).2 "t"
      = some { c3inv with status := 3 }
    ∧ (Org.Service.ProcessInvitation
        (Org.Service.ProcessInvitation c3db 10 "t" 7).2 11 "t" 7).1
      = .error "invitation has expired" :=
  processInvitation_expired_writeThenFail c3db 10 11 7 7 "t" c3inv (by decide)
    (by decide) (by decide) (by decide)

/-- Counterexample for C3 as stated: the second ProcessInvitation call on the
already-expired invitation returns the expired error again, not the
already-processed error the claim promises. -/
theorem processInvitation_expired_twice_counterexample :
    (Org.Service.ProcessInvitation c3db 10 "t" 7).1
      = .error "invitation has expired"
    ∧ (Org.Service.ProcessInvitation
        (Org.Service.ProcessInvitation c3db 10 "t" 7).2 11 "t" 7).1
      = .error "invitation has expired"
    ∧ (Org.Service.ProcessInvitation
        (Org.Service.ProcessInvitation c3db 10 "t" 7).2 11 "t" 7).1
      ≠ .error "invitation has already been processed" := by
  refine ⟨rfl, rfl, fun h => ?_⟩
  have h2 : (Org.Service.ProcessInvitation
      (Org.Service.ProcessInvitation c3db 10 "t" 7).2 11 "t" 7).1
      = .error "invitation has expired" := rfl
  rw [h2] at h
  injection h with hs
  exact (by decide :
    ¬ ("invitation has expired" = "invitation has already been processed")) hs

/-- AssignRoleToUser leaves the store untouched whenever it reports an error:
both guards fire before any write. -/
theorem assignRoleToUser_error_keeps_db (db : Authz.DB) (req : AssignRoleRequest)
    (aby : Nat) (e : String)
    (h : (Service.AssignRoleToUser db req aby).1 = .error e) :
    (Service.AssignRoleToUser db req aby).2 = db := by
  unfold Service.AssignRoleToUser at *
  cases hr : Repo.GetRoleByID db req.roleId with
  | none => simp [hr]
  | some r =>
    cases hc : Repo.CheckUserRole db req.userId req.roleId with
    | false => rw [hr] at h; simp [hc] at h
    | true => simp [hr, hc]

/-- One step of the assignment loop. -/
theorem assignRolesToUserLoop_cons (uid aby : Nat) (db : Authz.DB) (a : Nat)
    (l : List Nat) :
    Service.AssignRolesToUserLoop uid aby db (a :: l)
      = (match Service.AssignRoleToUser db
            { userId := uid, roleId := a, expiresAt := none } aby with
         | (.ok ur, db') =>
           ((ur :: (Service.AssignRolesToUserLoop uid aby db' l).1 : List Authz.UserRole),
            (Service.AssignRolesToUserLoop uid aby db' l).2)
         | (.error _, db') => Service.AssignRolesToUserLoop uid aby db' l) := by
  conv_lhs => unfold Service.AssignRolesToUserLoop

/-- The assignment loop processes an appended list by running the first part
and continuing on the resulting store, concatenating the successes. -/
theorem assignRolesToUserLoop_append (uid aby : Nat) (db : Authz.DB)
    (l1 l2 : List Nat) :
    Service.AssignRolesToUserLoop uid aby db (l1 ++ l2)
      = ((Service.AssignRolesToUserLoop uid aby db l1).1
           ++ (Service.AssignRolesToUserLoop uid aby
                (Service.AssignRolesToUserLoop uid aby db l1).2 l2).1,
         (Service.AssignRolesToUserLoop uid aby
           (Service.AssignRolesToUserLoop uid aby db l1).2 l2).2) := by
  induction l1 generalizing db with
  | nil => simp [Service.AssignRolesToUserLoop]
  | cons a rest ih =>
    rw [List.cons_append, assignRolesToUserLoop_cons uid aby db a (rest ++ l2),
      assignRolesToUserLoop_cons uid aby db a rest]
    cases h : Service.AssignRoleToUser db
        { userId := uid, roleId := a, expiresAt := none } aby with
    | mk res db' =>
      cases res with
      | ok ur => simp only [h]; simp [ih db']
      | error e => simp only [h]; simp [ih db']

/-- Claim C10: a role id whose assignment fails at its point in the sequence is
silently skipped: processing the list with the failing id gives exactly the
same successes and final store as processing the list without it, and the
overall call still returns ok (never an error caused by an individual id). -/
theorem assignRolesToUser_skips_failures (db : Authz.DB) (uid aby : Nat)
    (l1 : List Nat) (bad : Nat) (l2 : List Nat) (e : String)
    (hfail : (Service.AssignRoleToUser
        (Service.AssignRolesToUser db uid l1 aby).2
        { userId := uid, roleId := bad, expiresAt := none } aby).1 = .error e) :
    Service.AssignRolesToUser db uid (l1 ++ bad :: l2) aby
      = Service.AssignRolesToUser db uid (l1 ++ l2) aby
    ∧ ∃ rs, (Service.AssignRolesToUser db uid (l1 ++ bad :: l2) aby).1 = .ok rs := by
  have hfail' : (Service.AssignRoleToUser
      (Service.AssignRolesToUserLoop uid aby db l1).2
      { userId := uid, roleId := bad, expiresAt := none } aby).1 = .error e := hfail
  have hstep : Service.AssignRolesToUserLoop uid aby
      (Service.AssignRolesToUserLoop uid aby db l1).2 (bad :: l2)
      = Service.AssignRolesToUserLoop uid aby
          (Service.AssignRolesToUserLoop uid aby db l1).2 l2 := by
    have hkeep := assignRoleToUser_error_keeps_db
      (Service.AssignRolesToUserLoop uid aby db l1).2
      { userId := uid, roleId := bad, expiresAt := none } aby e hfail'
    rw [assignRolesToUserLoop_cons]
    cases h : Service.AssignRoleToUser (Service.AssignRolesToUserLoop uid aby db l1).2
        { userId := uid, roleId := bad, expiresAt := none } aby with
    | mk res db' =>
      cases res with
      | ok ur => rw [h] at hfail'; simp at hfail'
      | error e2 =>
        simp only [h]
        have hdb : db' = (Service.AssignRolesToUserLoop uid aby db l1).2 := by
          rw [h] at hkeep; exact hkeep
        rw [hdb]
  constructor
  · show (let p := Service.AssignRolesToUserLoop uid aby db (l1 ++ bad :: l2)
          ((Except.ok p.1 : Except String (List Authz.UserRole)), p.2))
        = (let q := Service.AssignRolesToUserLoop uid aby db (l1 ++ l2)
          ((Except.ok q.1 : Except String (List Authz.UserRole)), q.2))
    rw [assignRolesToUserLoop_append uid aby db l1 (bad :: l2),
        assignRolesToUserLoop_append uid aby db l1 l2, hstep]
  · exact ⟨(Service.AssignRolesToUserLoop uid aby db (l1 ++ bad :: l2)).1, rfl⟩

/-- Witness for C10: at the two-role store, assigning [1, 99, 2] (99 does not
exist) equals assigning [1, 2], and the call returns ok. -/
theorem assignRolesToUser_skips_failures_witness :
    Service.AssignRolesToUser c10db 5 ([1] ++ 99 :: [2]) 9
      = Service.AssignRolesToUser c10db 5 ([1] ++ [2]) 9
    ∧ ∃ rs, (Service.AssignRolesToUser c10db 5 ([1] ++ 99 :: [2]) 9).1 = .ok rs :=
  assignRolesToUser_skips_failures c10db 5 9 [1] 99 [2] "failed to get role" (by rfl)

/-- Counting argument behind the existence check of AssignPermissionsToRole:
with duplicate-free permission-table ids (primary keys) and a duplicate-free
request list, the row count of the IN query equals the request length exactly
when every requested id exists. -/
theorem getPermissionsByIDs_length_eq_iff (db : Authz.DB) (S : List Nat)
    (hids : (db.permissions.map Authz.Permission.id).Nodup) (hS : S.Nodup) :
    ((Repo.GetPermissionsByIDs db S).length = S.length)
      ↔ ∀ i ∈ S, ∃ p ∈ db.permissions, p.id = i := by
  classical
  have h1 : (Repo.GetPermissionsByIDs db S).length
      = ((db.permissions.map Authz.Permission.id).filter
          (fun i => S.contains i)).length := by
    rw [Repo.GetPermissionsByIDs, List.filter_map, List.length_map]
    rfl
  have h2 : ((db.permissions.map Authz.Permission.id).filter
      (fun i => S.contains i)).toFinset
      = (db.permissions.map Authz.Permission.id).toFinset ∩ S.toFinset := by
    ext x
    simp [List.mem_filter, Finset.mem_inter]
  have h3 : ((db.permissions.map Authz.Permission.id).filter
      (fun i => S.contains i)).length
      = ((db.permissions.map Authz.Permission.id).toFinset ∩ S.toFinset).card := by
    rw [← h2, List.toFinset_card_of_nodup (hids.filter _)]
  have h4 : S.length = S.toFinset.card := (List.toFinset_card_of_nodup hS).symm
  have h5 : (∀ i ∈ S, ∃ p ∈ db.permissions, p.id = i)
      ↔ S.toFinset ⊆ (db.permissions.map Authz.Permission.id).toFinset := by
    constructor
    · intro h x hx
      rw [List.mem_toFinset] at hx
      rw [List.mem_toFinset]
      obtain ⟨p, hp, hpi⟩ := h x hx
      exact hpi ▸ List.mem_map_of_mem Authz.Permission.id hp
    · intro h i hi
      have hmem := h (List.mem_toFinset.mpr hi)
      rw [List.mem_toFinset, List.mem_map] at hmem
      obtain ⟨p, hp, hpi⟩ := hmem
      exact ⟨p, hp, hpi⟩
  rw [h1, h3, h4, h5]
  constructor
  · intro hcard
    have hsub : (db.permissions.map Authz.Permission.id).toFinset ∩ S.toFinset
        ⊆ S.toFinset := Finset.inter_subset_right
    have heq := Finset.eq_of_subset_of_card_le hsub (le_of_eq hcard.symm)
    intro x hx
    rw [← heq] at hx
    exact (Finset.mem_inter.mp hx).1
  · intro hsub
    rw [Finset.inter_eq_right.mpr hsub]

/-- Claim C4 (amended, for duplicate-free id lists): AssignPermissionsToRole fails
with the role-lookup error when the role is absent, fails with the
permissions-not-found error when some listed id does not exist (store
untouched in both cases), and otherwise succeeds replacing the roles entire
link set with exactly the listed ids, touching no other roles links and no
other table. -/
theorem assignPermissionsToRole_replace (db : Authz.DB) (roleId : Nat)
    (S : List Nat)
    (hids : (db.permissions.map Authz.Permission.id).Nodup) (hS : S.Nodup) :
    (Repo.GetRoleByID db roleId = none →
      Service.AssignPermissionsToRole db roleId S
        = (.error "failed to get role", db))
    ∧ (∀ r, Repo.GetRoleByID db roleId = some r →
      (¬ ∀ i ∈ S, ∃ p ∈ db.permissions, p.id = i) →
      Service.AssignPermissionsToRole db roleId S
        = (.error "some permissions not found", db))
    ∧ (∀ r, Repo.GetRoleByID db roleId = some r →
      (∀ i ∈ S, ∃ p ∈ db.permissions, p.id = i) →
      (Service.AssignPermissionsToRole db roleId S).1 = .ok ()
      ∧ ((Service.AssignPermissionsToRole db roleId S).2.rolePermissions.filter
          (fun rp => rp.roleId == roleId)).map Authz.RolePermission.permissionId
        = S
      ∧ (Service.AssignPermissionsToRole db roleId S).2.rolePermissions.filter
          (fun rp => rp.roleId != roleId)
        = db.rolePermissions.filter (fun rp => rp.roleId != roleId)
      ∧ (Service.AssignPermissionsToRole db roleId S).2.roles = db.roles
      ∧ (Service.AssignPermissionsToRole db roleId S).2.permissions
        = db.permissions) := by
  refine ⟨?_, ?_, ?_⟩
  · intro h
    simp [Service.AssignPermissionsToRole, h]
  · intro r hr hnot
    have hlen : (Repo.GetPermissionsByIDs db S).length ≠ S.length :=
      fun he => hnot ((getPermissionsByIDs_length_eq_iff db S hids hS).mp he)
    have hcond : ((Repo.GetPermissionsByIDs db S).length != S.length) = true := by
      simpa [bne_iff_ne] using hlen
    simp [Service.AssignPermissionsToRole, hr, hcond]
  · intro r hr hall
    have hlen : (Repo.GetPermissionsByIDs db S).length = S.length :=
      (getPermissionsByIDs_length_eq_iff db S hids hS).mpr hall
    have hcond : ((Repo.GetPermissionsByIDs db S).length != S.length) = false := by
      simp [hlen]
    have hres : Service.AssignPermissionsToRole db roleId S
        = (.ok (), Repo.AssignPermissionsToRole db roleId S) := by
      simp [Service.AssignPermissionsToRole, hr, hcond]
    rw [hres]
    refine ⟨rfl, ?_, ?_, rfl, rfl⟩
    · simp only [Repo.AssignPermissionsToRole, List.filter_append,
        List.filter_filter, List.filter_map, Function.comp]
      simp only [bne, Bool.not_and_self, List.map_map, Function.comp]
      simp
      rw [show ((fun rp => rp.roleId == roleId) ∘ fun pid =>
          ({ roleId := roleId, permissionId := pid } : Authz.RolePermission))
          = fun _ => (true : Bool) from funext (fun pid => by simp)]
      rw [List.filter_true]
      rw [show (Authz.RolePermission.permissionId ∘ fun pid =>
          ({ roleId := roleId, permissionId := pid } : Authz.RolePermission))
          = id from rfl, List.map_id]
    · simp only [Repo.AssignPermissionsToRole, List.filter_append,
        List.filter_filter, List.filter_map, Function.comp]
      simp [bne, List.map_map, Function.comp]

/-- Witness for C4 at the three-permission store: assigning the list [1, 2]
succeeds and leaves the roles link set exactly [1, 2]. -/
theorem assignPermissionsToRole_replace_witness :
    (Service.AssignPermissionsToRole c4db 1 [1, 2]).1 = .ok ()
    ∧ ((Service.AssignPermissionsToRole c4db 1 [1, 2]).2.rolePermissions.filter
        (fun rp => rp.roleId == 1)).map Authz.RolePermission.permissionId
      = [1, 2] := by
  have h := (assignPermissionsToRole_replace c4db 1 [1, 2] (by decide) (by decide)
    ).2.2 (plainRole 1 "editor" 10) (by decide) (by decide)
  exact ⟨h.1, h.2.1⟩

/-- Counterexample for C4 as stated: for the duplicated list [1, 1] the role
and every listed permission id exist, yet the call fails with the
permissions-not-found error instead of performing the replacement, because the
IN query returns one row against a request of length two. -/
theorem assignPermissionsToRole_duplicate_counterexample :
    (Repo.GetRoleByID c4db 1).isSome = true
    ∧ (∀ i ∈ ([1, 1] : List Nat), ∃ p ∈ c4db.permissions, p.id = i)
    ∧ Service.AssignPermissionsToRole c4db 1 [1, 1]
      = (.error "some permissions not found", c4db) := by
  refine ⟨by decide, by decide, ?_⟩
  rfl

/-- Claim C9: CreateOrganization either fails with the store rolled back exactly to
its prior state (whichever write the storage collaborator fails), or succeeds
having created the organization, resolved or synthesized an admin role for it
(the synthesized one carrying the full-wildcard permission object), and bound
the creating user to it through an active membership. -/
theorem createOrganization_atomic (fail : Option Nat) (db : Org.OrgDB)
    (name : String) (userId now : Nat) :
    (∃ e, Org.Service.CreateOrganization fail db name userId now = (.error e, db))
    ∨ ((Org.Service.CreateOrganization fail db name userId now).1 = .ok ()
      ∧ Org.CreateOrganizationOk db
          (Org.Service.CreateOrganization fail db name userId now).2 name userId) := by
  unfold Org.Service.CreateOrganization
  cases hbody : Org.Service.CreateOrganizationBody fail db name userId now with
  | error e => exact Or.inl ⟨e, rfl⟩
  | ok db' =>
    right
    refine ⟨rfl, ?_⟩
    show Org.CreateOrganizationOk db db' name userId
    unfold Org.Service.CreateOrganizationBody at hbody
    by_cases h0 : Org.Service.writeFails fail 0 = true
    · rw [if_pos h0] at hbody; cases hbody
    rw [if_neg h0] at hbody
    dsimp only at hbody
    cases hfind : Org.Service.findAdminRole
        { organizations := db.organizations
            ++ [{ id := db.nextId, name := name, status := 1 }],
          roles := db.roles, members := db.members,
          invitations := db.invitations, nextId := db.nextId + 1 } db.nextId with
    | some role =>
      rw [hfind] at hbody
      dsimp only at hbody
      by_cases h1 : Org.Service.writeFails fail 1 = true
      · rw [if_pos h1] at hbody; cases hbody
      rw [if_neg h1] at hbody
      injection hbody with hdb'
      subst hdb'
      have hpred := List.find?_some hfind
      have hmem : role ∈ db.roles := List.mem_of_find?_eq_some hfind
      simp only [Bool.and_eq_true, Bool.or_eq_true, beq_iff_eq] at hpred
      refine ⟨db.nextId, role, ?_, ?_, hpred.1, ?_, Or.inl hmem, ?_⟩
      · simp [Org.Repo.AddMember]
      · simp only [Org.Repo.AddMember]
        exact hmem
      · rcases hpred.2 with h | h
        · exact Or.inl h
        · right
          cases horg : role.organizationId with
          | none => rfl
          | some v => rw [horg] at h; cases h
      · exact ⟨
          { userId := userId, organizationId := db.nextId, teamId := none,
            roleId := role.id, status := 1, joinedAt := now,
            invitedBy := userId },
          by simp [Org.Repo.AddMember], rfl, rfl, rfl, rfl⟩
    | none =>
      rw [hfind] at hbody
      dsimp only at hbody
      by_cases h1 : Org.Service.writeFails fail 1 = true
      · rw [if_pos h1] at hbody; cases hbody
      rw [if_neg h1] at hbody
      by_cases h2 : Org.Service.writeFails fail 2 = true
      · rw [if_pos h2] at hbody; cases hbody
      rw [if_neg h2] at hbody
      injection hbody with hdb'
      subst hdb'
      refine ⟨db.nextId,
        { id := db.nextId + 1, name := "admin", displayName := "Administrator",
          description := "Full administrative access",
          organizationId := some db.nextId,
          permissions := .obj [("*", .bool true)], isDefault := false },
        ?_, ?_, rfl, Or.inl rfl, Or.inr rfl, ?_⟩
      · simp [Org.Repo.AddMember]
      · simp [Org.Repo.AddMember]
      · exact ⟨
          { userId := userId, organizationId := db.nextId, teamId := none,
            roleId := db.nextId + 1, status := 1, joinedAt := now,
            invitedBy := userId },
          by simp [Org.Repo.AddMember], rfl, rfl, rfl, rfl⟩

end GinKit
